import Mathlib

/-!
Shallow embedding of the rate-limiting invocation controller
(debounce from `src/unnamed/part_010`, throttle from `src/unnamed/part_012`).

Modelling conventions:
* Timestamps (`Date.now()` values) are `Int`; clock skew may make differences
  negative, exactly as in the source.
* A platform timer handle is modelled as `Option Int` holding the scheduled
  expiry time of the armed timer (`none` = the handle is null/undefined).
  The source only ever tests a handle against null, so recording the expiry
  time is a conservative enrichment used by the event drivers.
* The wrapped operation is `fn : α → Except ε β`; `Except.error` models a
  thrown exception.  Each controller entry point returns the successor state
  together with `Except (Thrown ε) (Option β)`: `Except.error` means the call
  unwound by an exception (state mutations already made are kept, as for a JS
  closure), `Except.ok none` models returning `undefined`.
* `calls` is a ghost trace recording `(time, args)` of every execution of the
  wrapped operation, appended exactly where the source evaluates
  `fn(...args)`.
-/

namespace RateLimiter

instance {σ γ : Type} [DecidableEq σ] [DecidableEq γ] : DecidableEq (Except σ γ) :=
  fun x y =>
    match x, y with
    | Except.ok a, Except.ok b =>
        if h : a = b then isTrue (by rw [h]) else isFalse (by simp [h])
    | Except.ok _, Except.error _ => isFalse (by simp)
    | Except.error _, Except.ok _ => isFalse (by simp)
    | Except.error a, Except.error b =>
        if h : a = b then isTrue (by rw [h]) else isFalse (by simp [h])

/-- An exception unwinding out of the controller: either the internal
`Error('No arguments available for invocation')` or an exception thrown by
the wrapped operation. -/
inductive Thrown (ε : Type) where
  | noArgs : Thrown ε
  | fnError : ε → Thrown ε
deriving DecidableEq

/-- Immutable per-controller configuration (`fn`, `delay`, and the options
object of `debounce`; for throttle `maxWait` is always `none`). -/
structure Config (α β ε : Type) where
  fn : α → Except ε β
  delay : Int
  leading : Bool
  trailing : Bool
  maxWait : Option Int

/-- The closure variables of `debounce` (part_010 lines 23-28), plus the
ghost invocation trace `calls`. -/
structure DState (α β : Type) where
  timeoutId : Option Int := none
  maxTimeoutId : Option Int := none
  lastCallTime : Option Int := none
  lastInvokeTime : Int := 0
  lastArgs : Option α := none
  result : Option β := none
  calls : List (Int × α) := []
deriving DecidableEq

variable {α β ε : Type}

/-- The fresh state of a just-constructed debounce controller. -/
def initState : DState α β := {}

/-- `invokeFunc` (part_010 lines 30-39).  `lastArgs` is cleared and
`lastInvokeTime` set before the wrapped operation runs; if the operation
throws, those mutations persist and `result` keeps its old value. -/
def invokeFunc (cfg : Config α β ε) (time : Int) (s : DState α β) :
    DState α β × Except (Thrown ε) β :=
  match s.lastArgs with
  | none => (s, Except.error Thrown.noArgs)
  | some args =>
      let s1 : DState α β :=
        { s with lastArgs := none, lastInvokeTime := time,
                 calls := s.calls ++ [(time, args)] }
      match cfg.fn args with
      | Except.error e => (s1, Except.error (Thrown.fnError e))
      | Except.ok r => ({ s1 with result := some r }, Except.ok r)

/-- `leadingEdge` (part_010 lines 41-50). -/
def leadingEdge (cfg : Config α β ε) (time : Int) (s : DState α β) :
    DState α β × Except (Thrown ε) (Option β) :=
  let s1 : DState α β := { s with lastInvokeTime := time,
                                  timeoutId := some (time + cfg.delay) }
  let s2 : DState α β :=
    match cfg.maxWait with
    | some mw => { s1 with maxTimeoutId := some (time + mw) }
    | none => s1
  if cfg.leading then
    match invokeFunc cfg time s2 with
    | (s3, Except.ok r) => (s3, Except.ok (some r))
    | (s3, Except.error e) => (s3, Except.error e)
  else (s2, Except.ok s2.result)

/-- `remainingWait` (part_010 lines 52-60). -/
def remainingWait (cfg : Config α β ε) (time : Int) (s : DState α β) : Int :=
  let timeSinceLastCall := time - s.lastCallTime.getD 0
  let timeSinceLastInvoke := time - s.lastInvokeTime
  let timeWaiting := cfg.delay - timeSinceLastCall
  match cfg.maxWait with
  | some mw => min timeWaiting (mw - timeSinceLastInvoke)
  | none => timeWaiting

/-- `shouldInvoke` (part_010 lines 62-72). -/
def shouldInvoke (cfg : Config α β ε) (time : Int) (s : DState α β) : Bool :=
  let timeSinceLastCall := time - s.lastCallTime.getD 0
  let timeSinceLastInvoke := time - s.lastInvokeTime
  s.lastCallTime.isNone
    || decide (cfg.delay ≤ timeSinceLastCall)
    || decide (timeSinceLastCall < 0)
    || (match cfg.maxWait with
        | some mw => decide (mw ≤ timeSinceLastInvoke)
        | none => false)

/-- `trailingEdge` (part_010 lines 91-103). -/
def trailingEdge (cfg : Config α β ε) (time : Int) (s : DState α β) :
    DState α β × Except (Thrown ε) (Option β) :=
  let s1 : DState α β := { s with timeoutId := none, maxTimeoutId := none }
  if cfg.trailing && s1.lastArgs.isSome then
    match invokeFunc cfg time s1 with
    | (s2, Except.ok r) => (s2, Except.ok (some r))
    | (s2, Except.error e) => (s2, Except.error e)
  else ({ s1 with lastArgs := none }, Except.ok s1.result)

/-- `timerExpired` (part_010 lines 74-81); `time` is the `Date.now()` the
callback observes when it runs. -/
def timerExpired (cfg : Config α β ε) (time : Int) (s : DState α β) :
    DState α β × Except (Thrown ε) (Option β) :=
  if shouldInvoke cfg time s then trailingEdge cfg time s
  else ({ s with timeoutId := some (time + remainingWait cfg time s) },
        Except.ok s.result)

/-- `cancel` (part_010 lines 105-117).  Note: the `result` closure variable
is not touched. -/
def cancel (s : DState α β) : DState α β :=
  { s with timeoutId := none, maxTimeoutId := none,
           lastInvokeTime := 0, lastArgs := none, lastCallTime := none }

/-- `maxDelayExpired` (part_010 lines 83-89). -/
def maxDelayExpired (cfg : Config α β ε) (time : Int) (s : DState α β) :
    DState α β × Except (Thrown ε) (Option β) :=
  if cfg.trailing && s.lastArgs.isSome then trailingEdge cfg time s
  else (cancel s, Except.ok s.result)

/-- `flush` (part_010 lines 119-121). -/
def flush (cfg : Config α β ε) (time : Int) (s : DState α β) :
    DState α β × Except (Thrown ε) (Option β) :=
  if s.timeoutId = none then (s, Except.ok s.result)
  else trailingEdge cfg time s

/-- `pending` (part_010 lines 123-125). -/
def pending (s : DState α β) : Bool :=
  s.timeoutId ≠ none

/-- `debounced` (part_010 lines 127-153).  The source function is declared
`void`: every normal return is `undefined` (`Except.ok none`); an exception
thrown by a leading-edge invocation unwinds to the caller. -/
def debounced (cfg : Config α β ε) (time : Int) (args : α) (s : DState α β) :
    DState α β × Except (Thrown ε) (Option β) :=
  let isInvoking := shouldInvoke cfg time s
  let s1 : DState α β := { s with lastArgs := some args, lastCallTime := some time }
  if isInvoking then
    if s1.timeoutId = none then
      match leadingEdge cfg time s1 with
      | (s2, Except.ok _) => (s2, Except.ok none)
      | (s2, Except.error e) => (s2, Except.error e)
    else
      match cfg.maxWait with
      | some mw =>
          let s2 : DState α β := { s1 with timeoutId := some (time + cfg.delay) }
          let s3 : DState α β :=
            if s2.maxTimeoutId = none then { s2 with maxTimeoutId := some (time + mw) }
            else s2
          if cfg.leading then
            match invokeFunc cfg time s3 with
            | (s4, Except.ok _) => (s4, Except.ok none)
            | (s4, Except.error e) => (s4, Except.error e)
          else (s3, Except.ok none)
      | none =>
          -- falls through to the trailing arm; the timer is armed, so no-op
          (s1, Except.ok none)
  else
    if s1.timeoutId = none then
      ({ s1 with timeoutId := some (time + cfg.delay) }, Except.ok none)
    else (s1, Except.ok none)

/-- An event the single-threaded event loop can dispatch to a debounce
controller.  `fire`/`fireMax` run the corresponding timer callback at its
scheduled expiry (a no-op when the handle is unarmed, since a cleared timer
never fires). -/
inductive DEvent (α : Type) where
  | call (time : Int) (args : α) : DEvent α
  | fire : DEvent α
  | fireMax : DEvent α
  | flushAt (time : Int) : DEvent α
  | cancelNow : DEvent α
deriving DecidableEq

/-- Dispatch one event (state part only). -/
def applyEvent (cfg : Config α β ε) (s : DState α β) : DEvent α → DState α β
  | DEvent.call t a => (debounced cfg t a s).1
  | DEvent.fire =>
      match s.timeoutId with
      | some e => (timerExpired cfg e s).1
      | none => s
  | DEvent.fireMax =>
      match s.maxTimeoutId with
      | some m => (maxDelayExpired cfg m s).1
      | none => s
  | DEvent.flushAt t => (flush cfg t s).1
  | DEvent.cancelNow => cancel s

/-- Run a list of events in dispatch order. -/
def runEvents (cfg : Config α β ε) (s : DState α β) : List (DEvent α) → DState α β
  | [] => s
  | e :: r => runEvents cfg (applyEvent cfg s e) r

/-- Does the event list contain a controller call? -/
def hasCall : List (DEvent α) → Bool
  | [] => false
  | DEvent.call _ _ :: _ => true
  | _ :: r => hasCall r

/-- Does the event list contain a `cancel()`? -/
def hasCancel : List (DEvent α) → Bool
  | [] => false
  | DEvent.cancelNow :: _ => true
  | _ :: r => hasCancel r

/-- No sequence of future events that avoids calling the controller can make
the wrapped operation run. -/
def NoFutureInvocation (cfg : Config α β ε) (s : DState α β) : Prop :=
  ∀ evs : List (DEvent α), hasCall evs = false →
    (runEvents cfg s evs).calls = s.calls

/-- Fire the deferred timer before a call whose time is past the timer's
scheduled expiry (the event loop dispatches due callbacks first). -/
def fireDue (cfg : Config α β ε) (t : Int) (s : DState α β) : DState α β :=
  match s.timeoutId with
  | some e => if e ≤ t then (timerExpired cfg e s).1 else s
  | none => s

/-- Punctual-timer driver for a pure burst of calls: before each call, the
deferred timer fires if it came due, then the call is dispatched.  (For the
trailing-only bursts it is used on, at most one expiry can come due between
two consecutive calls; this is proved, not assumed.) -/
def stepCalls (cfg : Config α β ε) (s : DState α β) : List (Int × α) → DState α β
  | [] => s
  | (t, a) :: r => stepCalls cfg (debounced cfg t a (fireDue cfg t s)).1 r

/-- After the burst ends, let the deferred timer run to completion at its
scheduled expiries.  Under the trailing-only invariant the timer re-arms at
most once before the controller returns to Idle, so two expiries suffice;
the theorems also assert the final timer handle is unarmed. -/
def runPendingTimers (cfg : Config α β ε) (s : DState α β) : DState α β :=
  match s.timeoutId with
  | none => s
  | some e =>
      let s1 := (timerExpired cfg e s).1
      match s1.timeoutId with
      | none => s1
      | some e2 => (timerExpired cfg e2 s1).1

/-- The calls of a burst are in time order and each (after the first at
`t0`) arrives strictly within `d` of its predecessor. -/
def callsOkB (d : Int) : Int → List (Int × α) → Bool
  | _, [] => true
  | t0, (t, _) :: r => decide (t0 ≤ t) && decide (t - t0 < d) && callsOkB d t r

/-- Last element of a nonempty burst given as head plus tail. -/
def lastPair (p : Int × α) : List (Int × α) → Int × α
  | [] => p
  | q :: r => lastPair q r

/-- A debounce configuration with a plain (non-throwing) wrapped operation. -/
def pureCfg (f : α → β) (d : Int) (l tr : Bool) (mw : Option Int) :
    Config α β Empty :=
  { fn := fun a => Except.ok (f a), delay := d, leading := l,
    trailing := tr, maxWait := mw }

/-! ## Throttle (`src/unnamed/part_012`) -/

/-- Immutable throttle configuration (`fn`, `wait`, and the options object;
part_012 lines 10-19, defaults `leading = true`, `trailing = true`). -/
structure TConfig (α β ε : Type) where
  fn : α → Except ε β
  wait : Int
  leading : Bool
  trailing : Bool

/-- The closure variables of `throttle` (part_012 lines 21-25), plus the
ghost invocation trace `calls`. -/
structure TState (α β : Type) where
  lastCallTime : Option Int := none
  lastInvokeTime : Int := 0
  lastArgs : Option α := none
  result : Option β := none
  timerId : Option Int := none
  calls : List (Int × α) := []
deriving DecidableEq

/-- The fresh state of a just-constructed throttle controller. -/
def initStateT : TState α β := {}

/-- Throttle `invokeFunc` (part_012 lines 27-36). -/
def invokeFuncT (cfg : TConfig α β ε) (time : Int) (s : TState α β) :
    TState α β × Except (Thrown ε) β :=
  match s.lastArgs with
  | none => (s, Except.error Thrown.noArgs)
  | some args =>
      let s1 : TState α β :=
        { s with lastArgs := none, lastInvokeTime := time,
                 calls := s.calls ++ [(time, args)] }
      match cfg.fn args with
      | Except.error e => (s1, Except.error (Thrown.fnError e))
      | Except.ok r => ({ s1 with result := some r }, Except.ok r)

/-- Throttle `leadingEdge` (part_012 lines 38-42). -/
def leadingEdgeT (cfg : TConfig α β ε) (time : Int) (s : TState α β) :
    TState α β × Except (Thrown ε) (Option β) :=
  let s1 : TState α β := { s with lastInvokeTime := time,
                                  timerId := some (time + cfg.wait) }
  if cfg.leading then
    match invokeFuncT cfg time s1 with
    | (s2, Except.ok r) => (s2, Except.ok (some r))
    | (s2, Except.error e) => (s2, Except.error e)
  else (s1, Except.ok s1.result)

/-- Throttle `remainingWait` (part_012 lines 44-50); note it differs from
the debounce one. -/
def remainingWaitT (cfg : TConfig α β ε) (time : Int) (s : TState α β) : Int :=
  let timeSinceLastCall := time - s.lastCallTime.getD 0
  let timeSinceLastInvoke := time - s.lastInvokeTime
  let timeWaiting := cfg.wait - timeSinceLastInvoke
  min timeSinceLastCall timeWaiting

/-- Throttle `shouldInvoke` (part_012 lines 52-62); unlike the debounce
version it also fires when `wait` has elapsed since the last invocation. -/
def shouldInvokeT (cfg : TConfig α β ε) (time : Int) (s : TState α β) : Bool :=
  let timeSinceLastCall := time - s.lastCallTime.getD 0
  let timeSinceLastInvoke := time - s.lastInvokeTime
  s.lastCallTime.isNone
    || decide (cfg.wait ≤ timeSinceLastCall)
    || decide (timeSinceLastCall < 0)
    || decide (cfg.wait ≤ timeSinceLastInvoke)

/-- Throttle `trailingEdge` (part_012 lines 73-81). -/
def trailingEdgeT (cfg : TConfig α β ε) (time : Int) (s : TState α β) :
    TState α β × Except (Thrown ε) (Option β) :=
  let s1 : TState α β := { s with timerId := none }
  if cfg.trailing && s1.lastArgs.isSome then
    match invokeFuncT cfg time s1 with
    | (s2, Except.ok r) => (s2, Except.ok (some r))
    | (s2, Except.error e) => (s2, Except.error e)
  else ({ s1 with lastArgs := none }, Except.ok s1.result)

/-- Throttle `timerExpired` (part_012 lines 64-71). -/
def timerExpiredT (cfg : TConfig α β ε) (time : Int) (s : TState α β) :
    TState α β × Except (Thrown ε) (Option β) :=
  if shouldInvokeT cfg time s then trailingEdgeT cfg time s
  else ({ s with timerId := some (time + remainingWaitT cfg time s) },
        Except.ok s.result)

/-- Throttle `cancel` (part_012 lines 83-91); `result` is not touched. -/
def cancelT (s : TState α β) : TState α β :=
  { s with timerId := none, lastInvokeTime := 0,
           lastArgs := none, lastCallTime := none }

/-- Throttle `flush` (part_012 lines 93-95). -/
def flushT (cfg : TConfig α β ε) (time : Int) (s : TState α β) :
    TState α β × Except (Thrown ε) (Option β) :=
  if s.timerId = none then (s, Except.ok s.result)
  else trailingEdgeT cfg time s

/-- `throttled` (part_012 lines 97-113).  Unlike `debounced` it returns
`TReturn | undefined`: the leading-edge value when it invokes, otherwise the
cached `result`. -/
def throttled (cfg : TConfig α β ε) (time : Int) (args : α) (s : TState α β) :
    TState α β × Except (Thrown ε) (Option β) :=
  let isInvoking := shouldInvokeT cfg time s
  let s1 : TState α β := { s with lastArgs := some args, lastCallTime := some time }
  if isInvoking && s1.timerId = none then leadingEdgeT cfg time s1
  else
    if s1.timerId = none then
      ({ s1 with timerId := some (time + cfg.wait) }, Except.ok s1.result)
    else (s1, Except.ok s1.result)

/-- Events the event loop can dispatch to a throttle controller. -/
inductive TEvent (α : Type) where
  | call (time : Int) (args : α) : TEvent α
  | fire : TEvent α
  | flushAt (time : Int) : TEvent α
  | cancelNow : TEvent α
deriving DecidableEq

/-- Dispatch one throttle event (state part only). -/
def applyEventT (cfg : TConfig α β ε) (s : TState α β) : TEvent α → TState α β
  | TEvent.call t a => (throttled cfg t a s).1
  | TEvent.fire =>
      match s.timerId with
      | some e => (timerExpiredT cfg e s).1
      | none => s
  | TEvent.flushAt t => (flushT cfg t s).1
  | TEvent.cancelNow => cancelT s

/-- Run a list of throttle events in dispatch order. -/
def runEventsT (cfg : TConfig α β ε) (s : TState α β) : List (TEvent α) → TState α β
  | [] => s
  | e :: r => runEventsT cfg (applyEventT cfg s e) r

/-- Does the throttle event list contain a controller call? -/
def hasCallT : List (TEvent α) → Bool
  | [] => false
  | TEvent.call _ _ :: _ => true
  | _ :: r => hasCallT r

/-- No sequence of future events that avoids calling the throttle controller
can make the wrapped operation run. -/
def NoFutureInvocationT (cfg : TConfig α β ε) (s : TState α β) : Prop :=
  ∀ evs : List (TEvent α), hasCallT evs = false →
    (runEventsT cfg s evs).calls = s.calls

/-! ## Concrete controllers used by witnesses and counterexamples -/

/-- Debounce over `n ↦ n + 1`, `delay = 100`, leading and trailing. -/
def cfgLead : Config Nat Nat Empty := pureCfg (fun n => n + 1) 100 true true none

/-- Debounce over `n ↦ n + 1`, `delay = 100`, leading only. -/
def cfgLeadOnly : Config Nat Nat Empty := pureCfg (fun n => n + 1) 100 true false none

/-- Debounce over `n ↦ n + 1`, `delay = 100`, trailing only. -/
def cfgTrail : Config Nat Nat Empty := pureCfg (fun n => n + 1) 100 false true none

/-- Debounce over the identity, `delay = 100`, trailing only, `maxWait = 250`. -/
def cfgMax : Config Nat Nat Empty := pureCfg (fun n => n) 100 false true (some 250)

/-- Debounce whose wrapped operation always throws `7`. -/
def errCfg : Config Nat Nat Nat :=
  { fn := fun _ => Except.error 7, delay := 100, leading := true,
    trailing := true, maxWait := none }

/-- Throttle whose wrapped operation always throws `7`. -/
def errCfgT : TConfig Nat Nat Nat :=
  { fn := fun _ => Except.error 7, wait := 100, leading := true, trailing := true }

/-- Debounce whose wrapped operation always throws `7`, with a `maxWait`
ceiling configured. -/
def errCfgMax : Config Nat Nat Nat :=
  { fn := fun _ => Except.error 7, delay := 100, leading := true,
    trailing := true, maxWait := some 250 }

/-- Throttle over `n ↦ n + 1`, `wait = 100`, leading and trailing. -/
def tcfgLead : TConfig Nat Nat Empty :=
  { fn := fun n => Except.ok (n + 1), wait := 100, leading := true, trailing := true }

/-- The spec's maxWait-ceiling scenario: calls every `waitMs / 2 = 50` with
the deferred timer firing punctually at each of its scheduled expiries
(100, 150, 200, 250). -/
def burstEvents : List (DEvent Nat) :=
  [DEvent.call 0 10, DEvent.call 50 11, DEvent.fire, DEvent.call 100 12,
   DEvent.fire, DEvent.call 150 13, DEvent.fire, DEvent.call 200 14, DEvent.fire]

/-! ## Theorems -/

/-- C2: the decision predicate `shouldInvoke(now)` returns true exactly when
`lastCallTime` is unset, or `now - lastCallTime >= waitMs`, or
`now - lastCallTime < 0`, or (debounce with `maxWaitMs` configured)
`now - lastInvokeTime >= maxWaitMs`; for throttle additionally when
`now - lastInvokeTime >= waitMs`; and in every other case it returns
false. -/
theorem shouldInvoke_decision_rule (cfgD : Config α β ε) (cfgT : TConfig α β ε)
    (s : DState α β) (sT : TState α β) (now : Int) :
    (shouldInvoke cfgD now s = true ↔
      (s.lastCallTime = none ∨
       (∃ lc, s.lastCallTime = some lc ∧ (cfgD.delay ≤ now - lc ∨ now - lc < 0)) ∨
       (∃ mw, cfgD.maxWait = some mw ∧ mw ≤ now - s.lastInvokeTime)))
    ∧
    (shouldInvokeT cfgT now sT = true ↔
      (sT.lastCallTime = none ∨
       (∃ lc, sT.lastCallTime = some lc ∧ (cfgT.wait ≤ now - lc ∨ now - lc < 0)) ∨
       cfgT.wait ≤ now - sT.lastInvokeTime)) := by
  constructor
  · cases h : s.lastCallTime with
    | none => simp [shouldInvoke, h]
    | some lc =>
        cases hm : cfgD.maxWait with
        | none => simp [shouldInvoke, h, hm]
        | some mw => simp [shouldInvoke, h, hm]
  · cases h : sT.lastCallTime with
    | none => simp [shouldInvokeT, h]
    | some lc => simp [shouldInvokeT, h]

/-- C7 counterexample: after a leading-edge invocation (result `some 6`),
`cancel()` does NOT clear the cached `result` — the claim that every field
returns to its construction value (and that a post-cancel `flush()` returns
unset) fails on this input. -/
theorem cancel_keeps_result_cex :
    (cancel (debounced cfgLead 0 5 initState).1).result = some 6 ∧
    (flush cfgLead 1 (cancel (debounced cfgLead 0 5 initState).1)).2
      = Except.ok (some 6) := by
  constructor
  · decide
  · decide

/-- C7 amended: `cancel()` clears both timer handles, `pendingArgs` and
`lastCallTime`, and resets `lastInvokeTime` to 0, but it leaves the cached
`lastResult` untouched, so a subsequent `flush()` from Idle returns the
retained cached result (which is unset only if no invocation ever
occurred).  Likewise for the throttle controller. -/
theorem cancel_resets_all_but_result (cfg : Config α β ε) (s : DState α β)
    (sT : TState α β) (t : Int) :
    cancel s = { timeoutId := none, maxTimeoutId := none, lastCallTime := none,
                 lastInvokeTime := 0, lastArgs := none, result := s.result,
                 calls := s.calls } ∧
    flush cfg t (cancel s) = (cancel s, Except.ok s.result) ∧
    cancelT sT = { timerId := none, lastCallTime := none, lastInvokeTime := 0,
                   lastArgs := none, result := sT.result, calls := sT.calls } := by
  refine ⟨rfl, ?_, rfl⟩
  simp [flush, cancel]

/-- C10: when the wrapped operation throws, the controller state is not
rolled back: `pendingArgs` is already cleared and `lastInvokeTime` already
set to the invocation time before the operation runs, and `lastResult`
keeps the last successful value — the failed call's arguments are gone.
Both controllers. -/
theorem invoke_failure_no_rollback (cfg : Config α β ε) (cfgT : TConfig α β ε)
    (s : DState α β) (sT : TState α β) (t : Int) (a : α) (e : ε) :
    (s.lastArgs = some a → cfg.fn a = Except.error e →
      invokeFunc cfg t s =
        ({ s with lastArgs := none, lastInvokeTime := t,
                  calls := s.calls ++ [(t, a)] },
         Except.error (Thrown.fnError e))) ∧
    (sT.lastArgs = some a → cfgT.fn a = Except.error e →
      invokeFuncT cfgT t sT =
        ({ sT with lastArgs := none, lastInvokeTime := t,
                   calls := sT.calls ++ [(t, a)] },
         Except.error (Thrown.fnError e))) := by
  constructor
  · intro h1 h2
    simp [invokeFunc, h1, h2]
  · intro h1 h2
    simp [invokeFuncT, h1, h2]

/-- Witness for C10 at a concrete throwing operation. -/
theorem invoke_failure_no_rollback_witness :
    invokeFunc errCfg 3
        { timeoutId := none, maxTimeoutId := none, lastCallTime := none,
          lastInvokeTime := 0, lastArgs := some 5, result := some 9, calls := [] } =
      ({ timeoutId := none, maxTimeoutId := none, lastCallTime := none,
         lastInvokeTime := 3, lastArgs := none, result := some 9, calls := [(3, 5)] },
       Except.error (Thrown.fnError 7)) ∧
    invokeFuncT errCfgT 3
        { lastCallTime := none, lastInvokeTime := 0, lastArgs := some 5,
          result := some 9, timerId := none, calls := [] } =
      ({ lastCallTime := none, lastInvokeTime := 3, lastArgs := none,
         result := some 9, timerId := none, calls := [(3, 5)] },
       Except.error (Thrown.fnError 7)) := by
  have h := invoke_failure_no_rollback errCfg errCfgT
    { timeoutId := none, maxTimeoutId := none, lastCallTime := none,
      lastInvokeTime := 0, lastArgs := some 5, result := some 9, calls := [] }
    { lastCallTime := none, lastInvokeTime := 0, lastArgs := some 5,
      result := some 9, timerId := none, calls := [] }
    3 5 7
  exact ⟨h.1 rfl rfl, h.2 rfl rfl⟩

/-- A trailing edge whose armed invocation throws surfaces the thrown error
to whoever ran the trailing edge. -/
theorem trailingEdge_error (cfg : Config α β ε) (s : DState α β) (t : Int)
    (a : α) (e : ε) (hT : cfg.trailing = true) (hA : s.lastArgs = some a)
    (hE : cfg.fn a = Except.error e) :
    (trailingEdge cfg t s).2 = Except.error (Thrown.fnError e) := by
  simp [trailingEdge, invokeFunc, hT, hA, hE]

/-- A throttle trailing edge whose armed invocation throws surfaces the
thrown error to whoever ran the trailing edge. -/
theorem trailingEdgeT_error (cfg : TConfig α β ε) (s : TState α β) (t : Int)
    (a : α) (e : ε) (hT : cfg.trailing = true) (hA : s.lastArgs = some a)
    (hE : cfg.fn a = Except.error e) :
    (trailingEdgeT cfg t s).2 = Except.error (Thrown.fnError e) := by
  simp [trailingEdgeT, invokeFuncT, hT, hA, hE]

/-- C9: an exception thrown by the wrapped operation is neither caught nor
suppressed on any invocation path — it propagates synchronously out of
whichever entry point triggered the invocation: the original call on a
leading edge (debounce, both its Idle and its maxWait re-invocation branch,
and throttle), and the timer-expiry (deferred or ceiling) or `flush()`
caller on a trailing edge (debounce and throttle). -/
theorem thrown_error_propagates (cfg : Config α β ε) (cfgT : TConfig α β ε)
    (s : DState α β) (sT : TState α β) (t : Int) (a : α) (e : ε) (mw : Int) :
    (cfg.leading = true → s.timeoutId = none → shouldInvoke cfg t s = true →
      cfg.fn a = Except.error e →
      (debounced cfg t a s).2 = Except.error (Thrown.fnError e)) ∧
    (cfg.trailing = true → s.lastArgs = some a → shouldInvoke cfg t s = true →
      cfg.fn a = Except.error e →
      (timerExpired cfg t s).2 = Except.error (Thrown.fnError e)) ∧
    (cfg.trailing = true → s.lastArgs = some a → s.timeoutId ≠ none →
      cfg.fn a = Except.error e →
      (flush cfg t s).2 = Except.error (Thrown.fnError e)) ∧
    (cfgT.leading = true → sT.timerId = none → shouldInvokeT cfgT t sT = true →
      cfgT.fn a = Except.error e →
      (throttled cfgT t a sT).2 = Except.error (Thrown.fnError e)) ∧
    (cfg.leading = true → s.timeoutId ≠ none → shouldInvoke cfg t s = true →
      cfg.maxWait = some mw → cfg.fn a = Except.error e →
      (debounced cfg t a s).2 = Except.error (Thrown.fnError e)) ∧
    (cfg.trailing = true → s.lastArgs = some a → cfg.fn a = Except.error e →
      (maxDelayExpired cfg t s).2 = Except.error (Thrown.fnError e)) ∧
    (cfgT.trailing = true → sT.lastArgs = some a → shouldInvokeT cfgT t sT = true →
      cfgT.fn a = Except.error e →
      (timerExpiredT cfgT t sT).2 = Except.error (Thrown.fnError e)) ∧
    (cfgT.trailing = true → sT.lastArgs = some a → sT.timerId ≠ none →
      cfgT.fn a = Except.error e →
      (flushT cfgT t sT).2 = Except.error (Thrown.fnError e)) := by
  refine ⟨?_, ?_, ?_, ?_, ?_, ?_, ?_, ?_⟩
  · intro hL hId hSh hE
    cases hm : cfg.maxWait with
    | none => simp [debounced, leadingEdge, invokeFunc, hL, hId, hSh, hE, hm]
    | some mw2 => simp [debounced, leadingEdge, invokeFunc, hL, hId, hSh, hE, hm]
  · intro hT hA hSh hE
    simp only [timerExpired, hSh, if_true]
    exact trailingEdge_error cfg s t a e hT hA hE
  · intro hT hA hId hE
    simp only [flush, hId, if_false, if_neg hId]
    exact trailingEdge_error cfg s t a e hT hA hE
  · intro hL hId hSh hE
    simp [throttled, leadingEdgeT, invokeFuncT, hL, hId, hSh, hE]
  · intro hL hId hSh hm hE
    by_cases hmx : s.maxTimeoutId = none <;>
      simp [debounced, invokeFunc, hL, hId, hSh, hm, hmx, hE]
  · intro hT hA hE
    have hcond : (cfg.trailing && s.lastArgs.isSome) = true := by
      simp [hT, hA]
    unfold maxDelayExpired
    rw [if_pos hcond]
    exact trailingEdge_error cfg s t a e hT hA hE
  · intro hT hA hSh hE
    simp only [timerExpiredT, hSh, if_true]
    exact trailingEdgeT_error cfgT sT t a e hT hA hE
  · intro hT hA hId hE
    simp only [flushT, hId, if_false, if_neg hId]
    exact trailingEdgeT_error cfgT sT t a e hT hA hE

/-- Witness for C9: the throwing operation's error surfaces from every
concrete trigger — debounce leading call (Idle and maxWait-branch), timer
expiry, ceiling-timer expiry, flush, and throttle leading call, timer
expiry and flush. -/
theorem thrown_error_propagates_witness :
    (debounced errCfg 0 5 initState).2 = Except.error (Thrown.fnError 7) ∧
    (timerExpired errCfg 200
        { timeoutId := some 100, maxTimeoutId := none, lastCallTime := some 0,
          lastInvokeTime := 0, lastArgs := some 5, result := none, calls := [] }).2
      = Except.error (Thrown.fnError 7) ∧
    (flush errCfg 50
        { timeoutId := some 100, maxTimeoutId := none, lastCallTime := some 0,
          lastInvokeTime := 0, lastArgs := some 5, result := none, calls := [] }).2
      = Except.error (Thrown.fnError 7) ∧
    (throttled errCfgT 0 5 initStateT).2 = Except.error (Thrown.fnError 7) ∧
    (debounced errCfgMax 200 5
        { timeoutId := some 100, maxTimeoutId := some 250, lastCallTime := some 0,
          lastInvokeTime := 0, lastArgs := none, result := none, calls := [] }).2
      = Except.error (Thrown.fnError 7) ∧
    (maxDelayExpired errCfg 250
        { timeoutId := some 100, maxTimeoutId := none, lastCallTime := some 0,
          lastInvokeTime := 0, lastArgs := some 5, result := none, calls := [] }).2
      = Except.error (Thrown.fnError 7) ∧
    (timerExpiredT errCfgT 200
        { lastCallTime := some 0, lastInvokeTime := 0, lastArgs := some 5,
          result := none, timerId := some 100, calls := [] }).2
      = Except.error (Thrown.fnError 7) ∧
    (flushT errCfgT 50
        { lastCallTime := some 0, lastInvokeTime := 0, lastArgs := some 5,
          result := none, timerId := some 100, calls := [] }).2
      = Except.error (Thrown.fnError 7) := by
  have h1 := thrown_error_propagates errCfg errCfgT initState initStateT 0 5 7 250
  have h2 := thrown_error_propagates errCfg errCfgT
    { timeoutId := some 100, maxTimeoutId := none, lastCallTime := some 0,
      lastInvokeTime := 0, lastArgs := some 5, result := none, calls := [] }
    { lastCallTime := some 0, lastInvokeTime := 0, lastArgs := some 5,
      result := none, timerId := some 100, calls := [] }
    200 5 7 250
  have h3 := thrown_error_propagates errCfg errCfgT
    { timeoutId := some 100, maxTimeoutId := none, lastCallTime := some 0,
      lastInvokeTime := 0, lastArgs := some 5, result := none, calls := [] }
    { lastCallTime := some 0, lastInvokeTime := 0, lastArgs := some 5,
      result := none, timerId := some 100, calls := [] }
    50 5 7 250
  have h4 := thrown_error_propagates errCfgMax errCfgT
    { timeoutId := some 100, maxTimeoutId := some 250, lastCallTime := some 0,
      lastInvokeTime := 0, lastArgs := none, result := none, calls := [] }
    initStateT 200 5 7 250
  have h5 := thrown_error_propagates errCfg errCfgT
    { timeoutId := some 100, maxTimeoutId := none, lastCallTime := some 0,
      lastInvokeTime := 0, lastArgs := some 5, result := none, calls := [] }
    initStateT 250 5 7 250
  exact ⟨h1.1 rfl rfl (by decide) rfl,
         h2.2.1 rfl rfl (by decide) rfl,
         h3.2.2.1 rfl rfl (by decide) rfl,
         h1.2.2.2.1 rfl rfl (by decide) rfl,
         h4.2.2.2.2.1 rfl (by decide) (by decide) rfl rfl,
         h5.2.2.2.2.2.1 rfl rfl rfl,
         h2.2.2.2.2.2.2.1 rfl rfl (by decide) rfl,
         h3.2.2.2.2.2.2.2 rfl rfl (by decide) rfl⟩

/-- C8 counterexample: the debounce controller's invoke operation is
`void`.  Here a cached result `some 6` exists and the second call triggers
no fresh invocation (the ghost trace is unchanged), yet the call returns
`undefined` (`Except.ok none`), not the cached value — refuting the claim
for the debounce controller. -/
theorem debounced_returns_undefined_cex :
    (debounced cfgLead 0 5 initState).1.result = some 6 ∧
    (debounced cfgLead 1 7 (debounced cfgLead 0 5 initState).1).1.calls
      = (debounced cfgLead 0 5 initState).1.calls ∧
    (debounced cfgLead 1 7 (debounced cfgLead 0 5 initState).1).2
      = Except.ok none := by
  refine ⟨by decide, by decide, by decide⟩

/-- C8 amended: the throttle controller's invoke operation returns
`Result | unset`, and a call that does not trigger a fresh invocation
returns the cached result of the last underlying invocation (unset if none
ever occurred); the debounce controller's invoke operation instead returns
no value at all (`void`/`undefined` on every non-throwing path), its cached
result being reachable only through `flush()`. -/
theorem invoke_return_values (cfg : Config α β ε) (cfgT : TConfig α β ε)
    (s : DState α β) (sT : TState α β) (t : Int) (a : α) :
    ((debounced cfg t a s).2 = Except.ok none ∨
      ∃ e, (debounced cfg t a s).2 = Except.error e) ∧
    ((throttled cfgT t a sT).1.calls = sT.calls →
      (throttled cfgT t a sT).2 = Except.ok sT.result) := by
  constructor
  · unfold debounced
    cases hsi : shouldInvoke cfg t s
    · simp only [Bool.false_eq_true, if_false]
      split <;> simp
    · simp only [if_true]
      split
      · split <;> simp
      · split
        · split
          · split <;> simp
          · simp
        · simp
  · intro hcalls
    cases hid : sT.timerId with
    | some e0 =>
        simp [throttled, hid]
    | none =>
        by_cases hinv : shouldInvokeT cfgT t sT = true
        · by_cases hl : cfgT.leading = true
          · exfalso
            revert hcalls
            cases hfn : cfgT.fn a with
            | ok r => simp [throttled, leadingEdgeT, invokeFuncT, hid, hinv, hl, hfn]
            | error e => simp [throttled, leadingEdgeT, invokeFuncT, hid, hinv, hl, hfn]
          · simp [throttled, leadingEdgeT, hid, hinv, hl]
        · simp [throttled, hid, hinv]

/-- Witness for C8's amended throttle clause at a concrete non-invoking
call. -/
theorem invoke_return_values_witness :
    (throttled tcfgLead 10 7 (throttled tcfgLead 0 5 initStateT).1).2
      = Except.ok (some 6) := by
  have h := (invoke_return_values cfgLead tcfgLead initState
    (throttled tcfgLead 0 5 initStateT).1 10 7).2 (by decide)
  calc (throttled tcfgLead 10 7 (throttled tcfgLead 0 5 initStateT).1).2
      = Except.ok (throttled tcfgLead 0 5 initStateT).1.result := h
    _ = Except.ok (some 6) := by decide

/-- C4: `flush()` while a deferred invocation is pending performs the
trailing invocation synchronously with the stored most-recent-call
arguments and returns its result; an immediate second `flush()` (now Idle)
returns the same cached result without invoking again.  Both
controllers. -/
theorem flush_deterministic (cfg : Config α β ε) (cfgT : TConfig α β ε)
    (s : DState α β) (sT : TState α β) (t t2 : Int) (a : α) (r : β) :
    (s.timeoutId ≠ none → s.lastArgs = some a → cfg.trailing = true →
      cfg.fn a = Except.ok r →
      (flush cfg t s).2 = Except.ok (some r) ∧
      (flush cfg t s).1.calls = s.calls ++ [(t, a)] ∧
      (flush cfg t s).1.timeoutId = none ∧
      flush cfg t2 (flush cfg t s).1 = ((flush cfg t s).1, Except.ok (some r))) ∧
    (sT.timerId ≠ none → sT.lastArgs = some a → cfgT.trailing = true →
      cfgT.fn a = Except.ok r →
      (flushT cfgT t sT).2 = Except.ok (some r) ∧
      (flushT cfgT t sT).1.calls = sT.calls ++ [(t, a)] ∧
      (flushT cfgT t sT).1.timerId = none ∧
      flushT cfgT t2 (flushT cfgT t sT).1
        = ((flushT cfgT t sT).1, Except.ok (some r))) := by
  constructor
  · intro hId hA hT hF
    simp [flush, trailingEdge, invokeFunc, hId, hA, hT, hF]
  · intro hId hA hT hF
    simp [flushT, trailingEdgeT, invokeFuncT, hId, hA, hT, hF]

/-- Witness for C4 at a concrete pending trailing-only debounce state and a
concrete pending throttle state. -/
theorem flush_deterministic_witness :
    (flush cfgTrail 30 (debounced cfgTrail 0 5 initState).1).2
      = Except.ok (some 6) ∧
    (flush cfgTrail 30 (debounced cfgTrail 0 5 initState).1).1.calls = [(30, 5)] ∧
    (flushT tcfgLead 110 (throttled tcfgLead 100 8 (throttled tcfgLead 0 5
        initStateT).1).1).2 = Except.ok (some 9) := by
  have h1 := (flush_deterministic cfgTrail tcfgLead
    (debounced cfgTrail 0 5 initState).1 initStateT 30 31 5 6).1
    (by decide) (by decide) rfl rfl
  have h2 := (flush_deterministic cfgTrail tcfgLead initState
    (throttled tcfgLead 100 8 (throttled tcfgLead 0 5 initStateT).1).1
    110 111 8 9).2 (by decide) (by decide) rfl rfl
  refine ⟨h1.1, ?_, h2.1⟩
  have := h1.2.1
  simpa using this

/-- With both timer handles unarmed, no call-free event sequence can run
the wrapped operation (debounce). -/
theorem runEvents_unarmed (cfg : Config α β ε) :
    ∀ (evs : List (DEvent α)) (s : DState α β),
      s.timeoutId = none → s.maxTimeoutId = none → hasCall evs = false →
      (runEvents cfg s evs).calls = s.calls := by
  intro evs
  induction evs with
  | nil => intro s _ _ _; rfl
  | cons e r ih =>
      intro s h1 h2 h3
      cases e with
      | call t a => simp [hasCall] at h3
      | fire =>
          have ha : applyEvent cfg s DEvent.fire = s := by
            simp [applyEvent, h1]
          rw [runEvents, ha]
          exact ih s h1 h2 (by simpa [hasCall] using h3)
      | fireMax =>
          have ha : applyEvent cfg s DEvent.fireMax = s := by
            simp [applyEvent, h2]
          rw [runEvents, ha]
          exact ih s h1 h2 (by simpa [hasCall] using h3)
      | flushAt t =>
          have ha : applyEvent cfg s (DEvent.flushAt t) = s := by
            simp [applyEvent, flush, h1]
          rw [runEvents, ha]
          exact ih s h1 h2 (by simpa [hasCall] using h3)
      | cancelNow =>
          rw [runEvents]
          have hc : (runEvents cfg (applyEvent cfg s DEvent.cancelNow) r).calls
              = (cancel s).calls :=
            ih (cancel s) rfl rfl (by simpa [hasCall] using h3)
          exact hc

/-- With the timer handle unarmed, no call-free event sequence can run the
wrapped operation (throttle). -/
theorem runEventsT_unarmed (cfg : TConfig α β ε) :
    ∀ (evs : List (TEvent α)) (s : TState α β),
      s.timerId = none → hasCallT evs = false →
      (runEventsT cfg s evs).calls = s.calls := by
  intro evs
  induction evs with
  | nil => intro s _ _; rfl
  | cons e r ih =>
      intro s h1 h3
      cases e with
      | call t a => simp [hasCallT] at h3
      | fire =>
          have ha : applyEventT cfg s TEvent.fire = s := by
            simp [applyEventT, h1]
          rw [runEventsT, ha]
          exact ih s h1 (by simpa [hasCallT] using h3)
      | flushAt t =>
          have ha : applyEventT cfg s (TEvent.flushAt t) = s := by
            simp [applyEventT, flushT, h1]
          rw [runEventsT, ha]
          exact ih s h1 (by simpa [hasCallT] using h3)
      | cancelNow =>
          rw [runEventsT]
          exact ih (cancelT s) rfl (by simpa [hasCallT] using h3)

/-- C5: after `cancel()` both timer handles are released, so advancing time
past any previously scheduled deferral (any call-free sequence of timer
expiries and flushes) causes zero invocations of the wrapped operation; and
`cancel()` is idempotent — a second cancel from the resulting Idle state
leaves the state identical.  Both controllers; `cancel` is total, so no
error can be raised. -/
theorem cancel_suppresses_future_invocations (cfg : Config α β ε)
    (cfgT : TConfig α β ε) (s : DState α β) (sT : TState α β) :
    NoFutureInvocation cfg (cancel s) ∧
    cancel (cancel s) = cancel s ∧
    NoFutureInvocationT cfgT (cancelT sT) ∧
    cancelT (cancelT sT) = cancelT sT := by
  refine ⟨?_, rfl, ?_, rfl⟩
  · intro evs h
    exact runEvents_unarmed cfg evs (cancel s) rfl rfl h
  · intro evs h
    exact runEventsT_unarmed cfgT evs (cancelT sT) rfl h


/-- The `(state, ok r) ↦ (state, ok (some r))` wrapper keeps the state. -/
theorem mapSome_fst (p : DState α β × Except (Thrown ε) β) :
    (match p with
     | (s2, Except.ok r) => (s2, (Except.ok (some r) : Except (Thrown ε) (Option β)))
     | (s2, Except.error e) => (s2, Except.error e)).1 = p.1 := by
  rcases p with ⟨s2, r⟩
  cases r <;> rfl

/-- The `(state, ok _) ↦ (state, ok none)` wrapper keeps the state. -/
theorem mapNone_fst (p : DState α β × Except (Thrown ε) (Option β)) :
    (match p with
     | (s2, Except.ok _) => (s2, (Except.ok none : Except (Thrown ε) (Option β)))
     | (s2, Except.error e) => (s2, Except.error e)).1 = p.1 := by
  rcases p with ⟨s2, r⟩
  cases r <;> rfl

/-- The `(state, ok _) ↦ (state, ok none)` wrapper (value payload) keeps
the state. -/
theorem mapNoneB_fst (p : DState α β × Except (Thrown ε) β) :
    (match p with
     | (s2, Except.ok _) => (s2, (Except.ok none : Except (Thrown ε) (Option β)))
     | (s2, Except.error e) => (s2, Except.error e)).1 = p.1 := by
  rcases p with ⟨s2, r⟩
  cases r <;> rfl

/-- State part of `invokeFunc` in closed form. -/
theorem invokeFunc_fst (cfg : Config α β ε) (t : Int) (s : DState α β) :
    (invokeFunc cfg t s).1 =
      match s.lastArgs with
      | none => s
      | some a =>
          { s with lastArgs := none, lastInvokeTime := t,
                   calls := s.calls ++ [(t, a)],
                   result := match cfg.fn a with
                             | Except.ok r => some r
                             | Except.error _ => s.result } := by
  unfold invokeFunc
  cases h : s.lastArgs with
  | none => rfl
  | some a => cases hf : cfg.fn a <;> simp [hf]

/-- State part of `trailingEdge` in closed form. -/
theorem trailingEdge_fst (cfg : Config α β ε) (t : Int) (s : DState α β) :
    (trailingEdge cfg t s).1 =
      (if cfg.trailing && s.lastArgs.isSome then
        (invokeFunc cfg t { s with timeoutId := none, maxTimeoutId := none }).1
      else
        { s with timeoutId := none, maxTimeoutId := none, lastArgs := none }) := by
  unfold trailingEdge
  cases hq : cfg.trailing && s.lastArgs.isSome
  · simp [hq]
  · simp only [hq, if_true]
    exact mapSome_fst _

/-- State part of `leadingEdge` in closed form. -/
theorem leadingEdge_fst (cfg : Config α β ε) (t : Int) (s : DState α β) :
    (leadingEdge cfg t s).1 =
      (let s2 : DState α β :=
        match cfg.maxWait with
        | some mw => { s with lastInvokeTime := t,
                              timeoutId := some (t + cfg.delay),
                              maxTimeoutId := some (t + mw) }
        | none => { s with lastInvokeTime := t,
                           timeoutId := some (t + cfg.delay) }
      if cfg.leading then (invokeFunc cfg t s2).1 else s2) := by
  unfold leadingEdge
  cases hl : cfg.leading
  · cases hm : cfg.maxWait <;> simp [hm]
  · cases hm : cfg.maxWait <;> simp only [hm, if_true] <;> exact mapSome_fst _

/-- State part of `debounced` in closed form. -/
theorem debounced_fst (cfg : Config α β ε) (t : Int) (a : α) (s : DState α β) :
    (debounced cfg t a s).1 =
      (let s1 : DState α β := { s with lastArgs := some a, lastCallTime := some t }
       if shouldInvoke cfg t s then
         if s1.timeoutId = none then (leadingEdge cfg t s1).1
         else
           match cfg.maxWait with
           | some mw =>
               let s2 : DState α β := { s1 with timeoutId := some (t + cfg.delay) }
               let s3 : DState α β :=
                 if s2.maxTimeoutId = none then { s2 with maxTimeoutId := some (t + mw) }
                 else s2
               if cfg.leading then (invokeFunc cfg t s3).1 else s3
           | none => s1
       else
         if s1.timeoutId = none then { s1 with timeoutId := some (t + cfg.delay) }
         else s1) := by
  unfold debounced
  cases hsi : shouldInvoke cfg t s
  · simp only [Bool.false_eq_true, if_false]
    split <;> rfl
  · simp only [if_true]
    by_cases hid : s.timeoutId = none
    · simp only [hid, if_pos]
      exact mapNone_fst _
    · simp only [if_neg hid]
      cases hm : cfg.maxWait with
      | none => rfl
      | some mw =>
          cases hl : cfg.leading
          · simp only [Bool.false_eq_true, if_false]
          · simp only [if_true]
            exact mapNoneB_fst _

/-- State part of `timerExpired` in closed form. -/
theorem timerExpired_fst (cfg : Config α β ε) (t : Int) (s : DState α β) :
    (timerExpired cfg t s).1 =
      (if shouldInvoke cfg t s then (trailingEdge cfg t s).1
       else { s with timeoutId := some (t + remainingWait cfg t s) }) := by
  unfold timerExpired
  cases hsi : shouldInvoke cfg t s <;> simp

/-- State part of `maxDelayExpired` in closed form. -/
theorem maxDelayExpired_fst (cfg : Config α β ε) (t : Int) (s : DState α β) :
    (maxDelayExpired cfg t s).1 =
      (if cfg.trailing && s.lastArgs.isSome then (trailingEdge cfg t s).1
       else cancel s) := by
  unfold maxDelayExpired
  cases hq : cfg.trailing && s.lastArgs.isSome <;> simp

/-- State part of `flush` in closed form. -/
theorem flush_fst (cfg : Config α β ε) (t : Int) (s : DState α β) :
    (flush cfg t s).1 =
      (if s.timeoutId = none then s else (trailingEdge cfg t s).1) := by
  unfold flush
  by_cases hid : s.timeoutId = none <;> simp [hid]

/-- `invokeFunc` leaves both timer handles untouched. -/
theorem invokeFunc_timers (cfg : Config α β ε) (t : Int) (s : DState α β) :
    (invokeFunc cfg t s).1.timeoutId = s.timeoutId ∧
    (invokeFunc cfg t s).1.maxTimeoutId = s.maxTimeoutId := by
  rw [invokeFunc_fst]
  cases h : s.lastArgs <;> simp

/-- A trailing edge always clears both timer handles. -/
theorem trailingEdge_timers (cfg : Config α β ε) (t : Int) (s : DState α β) :
    (trailingEdge cfg t s).1.timeoutId = none ∧
    (trailingEdge cfg t s).1.maxTimeoutId = none := by
  rw [trailingEdge_fst]
  split
  · rw [invokeFunc_fst]
    cases h : s.lastArgs <;> simp
  · simp

/-- A leading edge always arms the deferred timer for `time + delay`. -/
theorem leadingEdge_timeoutId (cfg : Config α β ε) (t : Int) (s : DState α β) :
    (leadingEdge cfg t s).1.timeoutId = some (t + cfg.delay) := by
  rw [leadingEdge_fst]
  cases hm : cfg.maxWait <;> cases hl : cfg.leading <;>
    simp [invokeFunc_fst] <;> cases h : s.lastArgs <;> simp

/-- A controller call always leaves the deferred-timer handle armed. -/
theorem debounced_timeoutId_some (cfg : Config α β ε) (t : Int) (a : α)
    (s : DState α β) : (debounced cfg t a s).1.timeoutId ≠ none := by
  rw [debounced_fst]
  cases hsi : shouldInvoke cfg t s
  · simp only [Bool.false_eq_true, if_false]
    by_cases hid : s.timeoutId = none
    · simp [hid]
    · simp only [hid, if_neg hid]
      exact hid
  · simp only [if_true]
    by_cases hid : s.timeoutId = none
    · simp only [hid, if_pos]
      rw [leadingEdge_timeoutId]
      simp
    · simp only [if_neg hid]
      cases hm : cfg.maxWait with
      | none => exact hid
      | some mw =>
          cases hl : cfg.leading <;>
            simp only [Bool.false_eq_true, if_false, if_true] <;>
            split <;>
            simp [invokeFunc_fst]

/-- Co-invariant: the ceiling timer is never armed while the deferred timer
is unarmed. -/
def TimerInv (s : DState α β) : Prop :=
  s.timeoutId = none → s.maxTimeoutId = none

/-- A timer expiry preserves the timer co-invariant unconditionally. -/
theorem timerExpired_timerInv (cfg : Config α β ε) (t : Int) (s : DState α β) :
    TimerInv (timerExpired cfg t s).1 := by
  rw [timerExpired_fst]
  split
  · intro _
    exact (trailingEdge_timers cfg t s).2
  · intro hc
    simp at hc

/-- A ceiling-timer expiry establishes the timer co-invariant
unconditionally. -/
theorem maxDelayExpired_timerInv (cfg : Config α β ε) (t : Int) (s : DState α β) :
    TimerInv (maxDelayExpired cfg t s).1 := by
  rw [maxDelayExpired_fst]
  split
  · intro _
    exact (trailingEdge_timers cfg t s).2
  · intro _
    rfl

/-- Every event dispatch preserves the timer co-invariant. -/
theorem applyEvent_timerInv (cfg : Config α β ε) (s : DState α β)
    (e : DEvent α) (h : TimerInv s) : TimerInv (applyEvent cfg s e) := by
  cases e with
  | call t a =>
      intro hnone
      exact absurd hnone (debounced_timeoutId_some cfg t a s)
  | fire =>
      cases hid : s.timeoutId with
      | none => simpa [applyEvent, hid] using h
      | some e0 =>
          simp only [applyEvent, hid]
          exact timerExpired_timerInv cfg e0 s
  | fireMax =>
      cases hid : s.maxTimeoutId with
      | none => simpa [applyEvent, hid] using h
      | some m =>
          simp only [applyEvent, hid]
          exact maxDelayExpired_timerInv cfg m s
  | flushAt t =>
      rw [applyEvent, flush_fst]
      split
      · exact h
      · intro _
        exact (trailingEdge_timers cfg t s).2
  | cancelNow =>
      intro _
      rfl

/-- The timer co-invariant holds along every event run. -/
theorem runEvents_timerInv (cfg : Config α β ε) :
    ∀ (evs : List (DEvent α)) (s : DState α β), TimerInv s →
      TimerInv (runEvents cfg s evs) := by
  intro evs
  induction evs with
  | nil => intro s h; exact h
  | cons e r ih =>
      intro s h
      exact ih (applyEvent cfg s e) (applyEvent_timerInv cfg s e h)

/-- When trailing is disabled, no call-free event sequence ever runs the
wrapped operation, whatever the state. -/
theorem runEvents_not_trailing (cfg : Config α β ε) (hT : cfg.trailing = false) :
    ∀ (evs : List (DEvent α)) (s : DState α β), hasCall evs = false →
      (runEvents cfg s evs).calls = s.calls := by
  have hte : ∀ (t : Int) (s : DState α β),
      (trailingEdge cfg t s).1.calls = s.calls := by
    intro t s
    rw [trailingEdge_fst]
    simp [hT]
  intro evs
  induction evs with
  | nil => intro s _; rfl
  | cons e r ih =>
      intro s h3
      rw [runEvents]
      rw [ih (applyEvent cfg s e) (by cases e <;> simp [hasCall] at h3 <;> exact h3)]
      cases e with
      | call t a => simp [hasCall] at h3
      | fire =>
          cases hid : s.timeoutId with
          | none => simp [applyEvent, hid]
          | some e0 =>
              simp only [applyEvent, hid]
              rw [timerExpired_fst]
              split
              · exact hte e0 s
              · rfl
      | fireMax =>
          cases hid : s.maxTimeoutId with
          | none => simp [applyEvent, hid]
          | some m =>
              simp only [applyEvent, hid]
              rw [maxDelayExpired_fst]
              split
              · exact hte m s
              · rfl
      | flushAt t =>
          rw [applyEvent, flush_fst]
          split
          · rfl
          · exact hte t s
      | cancelNow => rfl

/-- C3 counterexample: with `leading = true, trailing = false`, after one
call the timer handle is armed, so `pending()` reports `true`, yet no
deferred invocation is pending: no call-free future (timer expiries,
flushes, cancels) can ever run the wrapped operation.  `pending()` thus
does report true although no future invocation can result, refuting the
claim. -/
theorem pending_without_deferred_invocation_cex :
    pending (debounced cfgLeadOnly 0 5 initState).1 = true ∧
    NoFutureInvocation cfgLeadOnly (debounced cfgLeadOnly 0 5 initState).1 := by
  refine ⟨by decide, ?_⟩
  intro evs h
  exact runEvents_not_trailing cfgLeadOnly rfl evs _ h

/-- C3 amended: in every reachable state of a debounce controller,
`pending()` returns true exactly when the deferred-timer handle is set, and
whenever `pending()` is false no future invocation can result without a new
call (the ceiling timer is then unarmed too); but when trailing is disabled
a set timer handle does not imply a pending deferred invocation. -/
theorem pending_timer_iff (cfg : Config α β ε) (evs : List (DEvent α)) :
    (pending (runEvents cfg initState evs) = true ↔
      (runEvents cfg initState evs).timeoutId ≠ none) ∧
    (pending (runEvents cfg initState evs) = false →
      NoFutureInvocation cfg (runEvents cfg initState evs)) := by
  constructor
  · simp [pending]
  · intro hp evs2 hc
    have h1 : (runEvents cfg initState evs).timeoutId = none := by
      simpa [pending] using hp
    have h2 : (runEvents cfg initState evs).maxTimeoutId = none :=
      runEvents_timerInv cfg evs initState (fun _ => rfl) h1
    exact runEvents_unarmed cfg evs2 _ h1 h2 hc

/-- Witness for C3's amended claim: the state reached by a call followed by
`cancel()` has `pending() = false`, and no call-free future invokes. -/
theorem pending_timer_iff_witness :
    NoFutureInvocation cfgLead
      (runEvents cfgLead initState [DEvent.call 0 5, DEvent.cancelNow]) :=
  (pending_timer_iff cfgLead [DEvent.call 0 5, DEvent.cancelNow]).2 (by decide)


/-- Invariant of a trailing-only no-maxWait burst: the latest call's
arguments and time are stored, no invocation has happened, the ceiling
timer is unarmed, and the deferred timer is armed for an expiry in
`(t, t + delay]`. -/
def TrailInv (cfg : Config α β ε) (t : Int) (a : α) (s : DState α β) : Prop :=
  s.lastArgs = some a ∧ s.lastCallTime = some t ∧ s.maxTimeoutId = none ∧
  s.calls = [] ∧ ∃ e, s.timeoutId = some e ∧ t < e ∧ e ≤ t + cfg.delay

/-- Unfolding `runPendingTimers` when a timer is armed. -/
theorem runPendingTimers_some (cfg : Config α β ε) (s : DState α β) (e : Int)
    (hE : s.timeoutId = some e) :
    runPendingTimers cfg s =
      (match ((timerExpired cfg e s).1).timeoutId with
       | none => (timerExpired cfg e s).1
       | some e2 => (timerExpired cfg e2 (timerExpired cfg e s).1).1) := by
  unfold runPendingTimers
  rw [hE]

/-- The first call of a burst establishes the burst invariant. -/
theorem trailInv_first (cfg : Config α β ε) (hL : cfg.leading = false)
    (hM : cfg.maxWait = none) (hd : 0 < cfg.delay) (t : Int) (a : α) :
    TrailInv cfg t a (debounced cfg t a initState).1 := by
  have hsi : shouldInvoke cfg t (initState : DState α β) = true := by
    simp [shouldInvoke, initState]
  have hstate : (debounced cfg t a initState).1 =
      { timeoutId := some (t + cfg.delay), maxTimeoutId := none,
        lastCallTime := some t, lastInvokeTime := t, lastArgs := some a,
        result := none, calls := [] } := by
    rw [debounced_fst]
    simp only [hsi, if_true]
    rw [leadingEdge_fst]
    simp [hL, hM, initState]
  rw [hstate]
  exact ⟨rfl, rfl, rfl, rfl, t + cfg.delay, rfl, by omega, by omega⟩

/-- A further in-window call (with the due timer fired first) keeps the
burst invariant at the new call. -/
theorem trailInv_step (cfg : Config α β ε)
    (hM : cfg.maxWait = none) (t t2 : Int) (a a2 : α) (s : DState α β)
    (hinv : TrailInv cfg t a s) (h1 : t ≤ t2) (h2 : t2 - t < cfg.delay) :
    TrailInv cfg t2 a2 (debounced cfg t2 a2 (fireDue cfg t2 s)).1 := by
  obtain ⟨hA, hC, hMx, hK, e, hE, he1, he2⟩ := hinv
  by_cases hdue : e ≤ t2
  · -- the timer comes due: it fires without invoking and re-arms for t + delay
    have hsi : shouldInvoke cfg e s = false := by
      simp [shouldInvoke, hC, hM]
      omega
    have hfire : fireDue cfg t2 s = { s with timeoutId := some (t + cfg.delay) } := by
      unfold fireDue
      rw [hE]
      show (if e ≤ t2 then (timerExpired cfg e s).1 else s) = _
      rw [if_pos hdue, timerExpired_fst]
      simp only [hsi, Bool.false_eq_true, if_false]
      have hrw : e + remainingWait cfg e s = t + cfg.delay := by
        simp [remainingWait, hC, hM]
        omega
      rw [hrw]
    rw [hfire]
    have hsi2 : shouldInvoke cfg t2
        ({ s with timeoutId := some (t + cfg.delay) } : DState α β) = false := by
      simp [shouldInvoke, hC, hM]
      omega
    rw [debounced_fst]
    simp only [hsi2, Bool.false_eq_true, if_false, reduceCtorEq]
    exact ⟨rfl, rfl, hMx, hK, t + cfg.delay, rfl, by omega, by omega⟩
  · -- the timer is not yet due: the call only refreshes args and call time
    have hfire : fireDue cfg t2 s = s := by
      unfold fireDue
      rw [hE]
      show (if e ≤ t2 then (timerExpired cfg e s).1 else s) = _
      rw [if_neg hdue]
    rw [hfire]
    have hsi2 : shouldInvoke cfg t2 s = false := by
      simp [shouldInvoke, hC, hM]
      omega
    rw [debounced_fst]
    simp only [hsi2, Bool.false_eq_true, if_false, hE, reduceCtorEq]
    exact ⟨rfl, rfl, hMx, hK, e, rfl, by omega, by omega⟩

/-- The burst invariant carries over a whole in-window burst. -/
theorem trailInv_run (cfg : Config α β ε)
    (hM : cfg.maxWait = none) :
    ∀ (rest : List (Int × α)) (t : Int) (a : α) (s : DState α β),
      TrailInv cfg t a s → callsOkB cfg.delay t rest = true →
      TrailInv cfg (lastPair (t, a) rest).1 (lastPair (t, a) rest).2
        (stepCalls cfg s rest) := by
  intro rest
  induction rest with
  | nil => intro t a s h _; exact h
  | cons p r ih =>
      rcases p with ⟨t2, a2⟩
      intro t a s h hok
      simp only [callsOkB, Bool.and_eq_true, decide_eq_true_eq] at hok
      obtain ⟨⟨hle, hlt⟩, hok2⟩ := hok
      exact ih t2 a2 _ (trailInv_step cfg hM t t2 a a2 s h hle hlt) hok2

/-- A punctual timer expiry at `t + delay` performs the single trailing
invocation with the stored arguments and disarms the timer. -/
theorem timerExpired_invoking (cfg : Config α β ε) (hT : cfg.trailing = true)
    (t : Int) (a : α) (s : DState α β) (h1 : s.lastArgs = some a)
    (h2 : s.lastCallTime = some t) (h3 : s.calls = []) :
    (timerExpired cfg (t + cfg.delay) s).1.calls = [(t + cfg.delay, a)] ∧
    (timerExpired cfg (t + cfg.delay) s).1.timeoutId = none := by
  have hsi : shouldInvoke cfg (t + cfg.delay) s = true := by
    simp [shouldInvoke, h2]
  rw [timerExpired_fst]
  simp only [hsi, if_true]
  rw [trailingEdge_fst]
  simp [hT, h1, invokeFunc_fst, h3]

/-- Running the pending timer to completion from a burst-invariant state
yields exactly one invocation, at `t + delay` with the last stored
arguments, and ends Idle. -/
theorem trailInv_finish (cfg : Config α β ε) (hT : cfg.trailing = true)
    (hM : cfg.maxWait = none) (t : Int) (a : α) (s : DState α β)
    (hinv : TrailInv cfg t a s) :
    (runPendingTimers cfg s).calls = [(t + cfg.delay, a)] ∧
    (runPendingTimers cfg s).timeoutId = none := by
  obtain ⟨hA, hC, hMx, hK, e, hE, he1, he2⟩ := hinv
  by_cases hfin : e = t + cfg.delay
  · subst hfin
    have h := timerExpired_invoking cfg hT t a s hA hC hK
    rw [runPendingTimers_some cfg s _ hE]
    rw [h.2]
    exact h
  · -- the first expiry is early: it re-arms for t + delay, the second invokes
    have hsi : shouldInvoke cfg e s = false := by
      simp [shouldInvoke, hC, hM]
      omega
    have hs1 : (timerExpired cfg e s).1
        = { s with timeoutId := some (t + cfg.delay) } := by
      rw [timerExpired_fst]
      simp only [hsi, Bool.false_eq_true, if_false]
      have hrw : e + remainingWait cfg e s = t + cfg.delay := by
        simp [remainingWait, hC, hM]
        omega
      rw [hrw]
    have h := timerExpired_invoking cfg hT t a
      ({ s with timeoutId := some (t + cfg.delay) } : DState α β) hA hC hK
    rw [runPendingTimers_some cfg s e hE, hs1]
    exact h

/-- C1: for a trailing-only debounce controller (no maxWait) and any burst
of `N ≥ 1` calls each arriving within `waitMs` of its predecessor, exactly
one underlying invocation occurs; it happens when the deferred timer
finally expires `waitMs` after the last call, with that call's arguments,
and the controller ends Idle. -/
theorem debounce_trailing_coalescing (cfg : Config α β ε) (t1 : Int) (a1 : α)
    (rest : List (Int × α)) (hL : cfg.leading = false) (hT : cfg.trailing = true)
    (hM : cfg.maxWait = none) (hd : 0 < cfg.delay)
    (hok : callsOkB cfg.delay t1 rest = true) :
    (runPendingTimers cfg (stepCalls cfg initState ((t1, a1) :: rest))).calls
      = [((lastPair (t1, a1) rest).1 + cfg.delay, (lastPair (t1, a1) rest).2)] ∧
    (runPendingTimers cfg (stepCalls cfg initState ((t1, a1) :: rest))).timeoutId
      = none := by
  have h0 : stepCalls cfg initState ((t1, a1) :: rest)
      = stepCalls cfg (debounced cfg t1 a1 initState).1 rest := rfl
  rw [h0]
  have hinv := trailInv_run cfg hM rest t1 a1 _
    (trailInv_first cfg hL hM hd t1 a1) hok
  exact trailInv_finish cfg hT hM _ _ _ hinv

/-- Witness for C1: the spec's example burst (calls at 0, 10, 20, wait
100) invokes exactly once, at t = 120, with the t = 20 call's argument. -/
theorem debounce_trailing_coalescing_witness :
    (runPendingTimers cfgTrail
        (stepCalls cfgTrail initState [(0, 1), (10, 2), (20, 3)])).calls
      = [(120, 3)] := by
  have h := (debounce_trailing_coalescing cfgTrail 0 1 [(10, 2), (20, 3)]
    rfl rfl rfl (by decide) (by decide)).1
  simpa using h



/-- An armed trailing edge (trailing enabled, args stored) records exactly
one new invocation at its expiry time. -/
theorem trailingEdge_invokes (cfg : Config α β ε) (hT : cfg.trailing = true)
    (t : Int) (b : α) (s : DState α β) (hb : s.lastArgs = some b) :
    (trailingEdge cfg t s).1.calls = s.calls ++ [(t, b)] := by
  rw [trailingEdge_fst]
  simp [hT, hb, invokeFunc_fst]

/-- A ceiling-timer expiry with trailing enabled and args stored forces the
trailing invocation at that moment. -/
theorem maxDelay_forces (cfg : Config α β ε) (hT : cfg.trailing = true)
    (m : Int) (b : α) (s : DState α β) (hb : s.lastArgs = some b) :
    (maxDelayExpired cfg m s).1.calls = s.calls ++ [(m, b)] := by
  rw [maxDelayExpired_fst]
  simp only [hT, hb, Option.isSome_some, Bool.and_self, if_true]
  exact trailingEdge_invokes cfg hT m b s hb

/-- The ghost invocation trace only ever grows (`invokeFunc`). -/
theorem invokeFunc_calls_mono (cfg : Config α β ε) (t : Int) (s : DState α β) :
    s.calls <+: (invokeFunc cfg t s).1.calls := by
  rw [invokeFunc_fst]
  cases h : s.lastArgs <;> simp

/-- `invokeFunc` trace growth, stated for any state whose trace is `l`. -/
theorem invokeFunc_calls_mono_of (cfg : Config α β ε) (t : Int)
    (s2 : DState α β) {l : List (Int × α)} (h : s2.calls = l) :
    l <+: (invokeFunc cfg t s2).1.calls := by
  rw [← h]
  exact invokeFunc_calls_mono cfg t s2

/-- The ghost invocation trace only ever grows (`trailingEdge`). -/
theorem trailingEdge_calls_mono (cfg : Config α β ε) (t : Int) (s : DState α β) :
    s.calls <+: (trailingEdge cfg t s).1.calls := by
  rw [trailingEdge_fst]
  split
  · exact invokeFunc_calls_mono_of cfg t _ rfl
  · simp

/-- The ghost invocation trace only ever grows (`leadingEdge`). -/
theorem leadingEdge_calls_mono (cfg : Config α β ε) (t : Int) (s : DState α β) :
    s.calls <+: (leadingEdge cfg t s).1.calls := by
  rw [leadingEdge_fst]
  cases hm : cfg.maxWait <;> cases hl : cfg.leading <;>
    simp only [hm, hl, Bool.false_eq_true, if_false, if_true] <;>
    first
    | exact invokeFunc_calls_mono_of cfg t _ rfl
    | exact List.prefix_refl _

/-- `leadingEdge` trace growth, stated for any state whose trace is `l`. -/
theorem leadingEdge_calls_mono_of (cfg : Config α β ε) (t : Int)
    (s2 : DState α β) {l : List (Int × α)} (h : s2.calls = l) :
    l <+: (leadingEdge cfg t s2).1.calls := by
  rw [← h]
  exact leadingEdge_calls_mono cfg t s2

/-- The ghost invocation trace only ever grows (`debounced`). -/
theorem debounced_calls_mono (cfg : Config α β ε) (t : Int) (a : α)
    (s : DState α β) : s.calls <+: (debounced cfg t a s).1.calls := by
  rw [debounced_fst]
  dsimp only
  repeat' split
  all_goals
    first
    | exact leadingEdge_calls_mono_of cfg t _ rfl
    | exact invokeFunc_calls_mono_of cfg t _ rfl
    | exact List.prefix_refl _

/-- The ghost invocation trace only ever grows (events). -/
theorem applyEvent_calls_mono (cfg : Config α β ε) (s : DState α β)
    (e : DEvent α) : s.calls <+: (applyEvent cfg s e).calls := by
  cases e with
  | call t a => exact debounced_calls_mono cfg t a s
  | fire =>
      cases hid : s.timeoutId with
      | none => simp [applyEvent, hid]
      | some e0 =>
          simp only [applyEvent, hid]
          rw [timerExpired_fst]
          split
          · exact trailingEdge_calls_mono cfg e0 s
          · exact List.prefix_refl _
  | fireMax =>
      cases hid : s.maxTimeoutId with
      | none => simp [applyEvent, hid]
      | some m =>
          simp only [applyEvent, hid]
          rw [maxDelayExpired_fst]
          split
          · exact trailingEdge_calls_mono cfg m s
          · exact List.prefix_refl _
  | flushAt t =>
      rw [applyEvent, flush_fst]
      split
      · exact List.prefix_refl _
      · exact trailingEdge_calls_mono cfg t s
  | cancelNow => exact List.prefix_refl _

/-- The ghost invocation trace only ever grows (event runs). -/
theorem runEvents_calls_mono (cfg : Config α β ε) :
    ∀ (evs : List (DEvent α)) (s : DState α β),
      s.calls <+: (runEvents cfg s evs).calls := by
  intro evs
  induction evs with
  | nil => intro s; exact List.prefix_refl _
  | cons e r ih =>
      intro s
      exact (applyEvent_calls_mono cfg s e).trans (ih (applyEvent cfg s e))

/-- Burst invariant under a configured ceiling timer: args stored, deferred
timer armed, ceiling timer armed for `m`. -/
def MaxBurstInv (m : Int) (s : DState α β) : Prop :=
  s.lastArgs.isSome = true ∧ s.timeoutId.isSome = true ∧ s.maxTimeoutId = some m

/-- Any cancel-free event that does not invoke preserves the ceiling-burst
invariant. -/
theorem applyEvent_maxBurst (cfg : Config α β ε) (hT : cfg.trailing = true)
    (m : Int) (s : DState α β) (e : DEvent α) (hne : e ≠ DEvent.cancelNow)
    (hinv : MaxBurstInv m s) (hsame : (applyEvent cfg s e).calls = s.calls) :
    MaxBurstInv m (applyEvent cfg s e) := by
  obtain ⟨hA, hTo, hMx⟩ := hinv
  obtain ⟨b, hb⟩ := Option.isSome_iff_exists.mp hA
  obtain ⟨e0, he0⟩ := Option.isSome_iff_exists.mp hTo
  cases e with
  | call t a =>
      revert hsame
      rw [applyEvent, debounced_fst]
      cases hsi : shouldInvoke cfg t s
      · simp only [Bool.false_eq_true, if_false, he0, reduceCtorEq]
        intro _
        exact ⟨rfl, by simp, hMx⟩
      · simp only [if_true, he0, reduceCtorEq, if_false]
        cases hm : cfg.maxWait with
        | none =>
            intro _
            exact ⟨rfl, by simp [he0], hMx⟩
        | some mw =>
            simp only [hMx, reduceCtorEq, if_false]
            cases hl : cfg.leading
            · simp only [Bool.false_eq_true, if_false]
              intro _
              exact ⟨rfl, by simp, rfl⟩
            · simp only [if_true]
              rw [invokeFunc_fst]
              simp only []
              intro hsame
              exfalso
              simp at hsame
  | fire =>
      revert hsame
      simp only [applyEvent, he0]
      rw [timerExpired_fst]
      split
      · rw [trailingEdge_invokes cfg hT e0 b s hb]
        intro hsame
        exfalso
        simp at hsame
      · intro _
        exact ⟨hA, by simp, hMx⟩
  | fireMax =>
      revert hsame
      simp only [applyEvent, hMx]
      rw [maxDelay_forces cfg hT m b s hb]
      intro hsame
      exfalso
      simp at hsame
  | flushAt t =>
      revert hsame
      rw [applyEvent, flush_fst]
      rw [if_neg (by simp [he0])]
      rw [trailingEdge_invokes cfg hT t b s hb]
      intro hsame
      exfalso
      simp at hsame
  | cancelNow => exact absurd rfl hne

/-- Along any cancel-free event run, either some invocation occurs or the
ceiling-burst invariant still holds (with the trace unchanged). -/
theorem runEvents_maxBurst (cfg : Config α β ε) (hT : cfg.trailing = true)
    (m : Int) :
    ∀ (evs : List (DEvent α)) (s : DState α β), hasCancel evs = false →
      MaxBurstInv m s →
      (runEvents cfg s evs).calls ≠ s.calls ∨
      (MaxBurstInv m (runEvents cfg s evs) ∧
        (runEvents cfg s evs).calls = s.calls) := by
  intro evs
  induction evs with
  | nil => intro s _ h; exact Or.inr ⟨h, rfl⟩
  | cons e r ih =>
      intro s hc hinv
      have hcr : hasCancel r = false := by
        cases e <;> simp [hasCancel] at hc ⊢ <;> exact hc
      have hcne : e ≠ DEvent.cancelNow := by
        intro h
        subst h
        simp [hasCancel] at hc
      by_cases hsame : (applyEvent cfg s e).calls = s.calls
      · have hinv2 := applyEvent_maxBurst cfg hT m s e hcne hinv hsame
        rcases ih (applyEvent cfg s e) hcr hinv2 with h | ⟨h1, h2⟩
        · left
          rw [runEvents]
          rw [hsame] at h
          exact h
        · right
          refine ⟨h1, ?_⟩
          rw [runEvents, h2, hsame]
      · left
        have hp1 := applyEvent_calls_mono cfg s e
        have hp2 := runEvents_calls_mono cfg r (applyEvent cfg s e)
        intro heq
        rw [runEvents] at heq
        have hlen : s.calls.length = (applyEvent cfg s e).calls.length := by
          have l1 := hp1.length_le
          have l2 := hp2.length_le
          rw [heq] at l2
          omega
        exact hsame (hp1.eq_of_length hlen).symm

/-- C6: for a debounce controller with trailing enabled and `maxWaitMs`
configured, a ceiling-timer expiry with pendingArgs stored forces a
trailing invocation at that moment; with trailing disabled or no
pendingArgs it cancels to Idle with no invocation; and under a burst of
calls the deferral cannot be silently lost: along any cancel-free run
either an invocation already occurred or the ceiling timer is still armed
at `m` and firing it invokes at time `m` — in particular, under the spec's
calls-every-`waitMs/2` schedule (`wait = 100`, `maxWait = 250`) the single
invocation occurs at t = 250, within `maxWaitMs` of the first call. -/
theorem maxwait_forces_invocation (cfg : Config α β ε) (s : DState α β)
    (m t : Int) (a : α) (evs : List (DEvent α)) :
    (cfg.trailing = true → s.lastArgs = some a → s.maxTimeoutId = some m →
      (maxDelayExpired cfg m s).1.calls = s.calls ++ [(m, a)]) ∧
    (cfg.trailing = false ∨ s.lastArgs = none →
      maxDelayExpired cfg t s = (cancel s, Except.ok s.result)) ∧
    (cfg.trailing = true → s.lastArgs.isSome = true → s.timeoutId.isSome = true →
      s.maxTimeoutId = some m → hasCancel evs = false →
      (runEvents cfg s evs).calls ≠ s.calls ∨
      ∃ b, (runEvents cfg s evs).lastArgs = some b ∧
        (maxDelayExpired cfg m (runEvents cfg s evs)).1.calls
          = (runEvents cfg s evs).calls ++ [(m, b)]) ∧
    (runEvents cfgMax initState burstEvents).calls = [(250, 14)] := by
  refine ⟨?_, ?_, ?_, by decide⟩
  · intro hT hb _
    exact maxDelay_forces cfg hT m a s hb
  · intro h
    unfold maxDelayExpired
    rcases h with h | h <;> simp [h]
  · intro hT hA hTo hMx hc
    rcases runEvents_maxBurst cfg hT m evs s hc ⟨hA, hTo, hMx⟩ with h | ⟨⟨h1, h2, h3⟩, _⟩
    · exact Or.inl h
    · right
      obtain ⟨b, hb⟩ := Option.isSome_iff_exists.mp h1
      exact ⟨b, hb, maxDelay_forces cfg hT m b _ hb⟩

/-- Witness for C6 at the concrete ceiling-burst controller: after the
first two calls of the burst an invocation either already happened or the
armed ceiling timer forces one at t = 250. -/
theorem maxwait_forces_invocation_witness :
    (runEvents cfgMax (runEvents cfgMax initState [DEvent.call 0 10])
        [DEvent.call 50 11]).calls
      ≠ (runEvents cfgMax initState [DEvent.call 0 10]).calls ∨
    ∃ b, (runEvents cfgMax (runEvents cfgMax initState [DEvent.call 0 10])
        [DEvent.call 50 11]).lastArgs = some b ∧
      (maxDelayExpired cfgMax 250 (runEvents cfgMax
          (runEvents cfgMax initState [DEvent.call 0 10])
          [DEvent.call 50 11])).1.calls
        = (runEvents cfgMax (runEvents cfgMax initState [DEvent.call 0 10])
            [DEvent.call 50 11]).calls ++ [(250, b)] :=
  (maxwait_forces_invocation cfgMax
      (runEvents cfgMax initState [DEvent.call 0 10]) 250 0 10
      [DEvent.call 50 11]).2.2.1
    rfl (by decide) (by decide) (by decide) (by decide)



/-- Witness for C2 at concrete first-call states. -/
theorem shouldInvoke_decision_rule_witness :
    shouldInvoke cfgLead 0 (initState : DState Nat Nat) = true ∧
    shouldInvokeT tcfgLead 0 (initStateT : TState Nat Nat) = true := by
  have h := shouldInvoke_decision_rule cfgLead tcfgLead initState initStateT 0
  exact ⟨h.1.mpr (Or.inl rfl), h.2.mpr (Or.inl rfl)⟩

/-- Witness for C5 at a concrete cancelled controller: a later timer expiry
and flush invoke nothing, and a second cancel is a no-op. -/
theorem cancel_suppresses_future_invocations_witness :
    (runEvents cfgLead (cancel (debounced cfgLead 0 5 initState).1)
        [DEvent.fire, DEvent.flushAt 300]).calls
      = (cancel (debounced cfgLead 0 5 initState).1).calls ∧
    cancel (cancel (debounced cfgLead 0 5 initState).1)
      = cancel (debounced cfgLead 0 5 initState).1 := by
  have h := cancel_suppresses_future_invocations cfgLead tcfgLead
    (debounced cfgLead 0 5 initState).1 initStateT
  exact ⟨h.1 [DEvent.fire, DEvent.flushAt 300] (by decide), h.2.1⟩

end RateLimiter
